import Mathlib

/-!
Verification of the GlovoAdmin browser admin panel (vanilla JS) against its
natural-language specification.  The definitions below are shallow embeddings
of the functions in `script.js`, `orders.js`, `products.js` (part_000),
`users.js` (part_001), `deliveries.js` (part_002) and `clients.js`.

JavaScript numbers that appear in the data (ids, quantities, amounts,
durations) are decimal values; we model them exactly as scaled decimals
(`Dec10`, a mantissa `m : Int` with value `m / 10 ^ s`).  All the values the
program manipulates in the claims are exactly representable this way, so the
model agrees with IEEE doubles on them.  JavaScript strings are modelled as
Lean `String`s (code-unit comparisons agree on the ASCII data involved).
-/

/-- A decimal number `m / 10 ^ s`.  Model of the JavaScript numbers handled by
the admin panel (ids, quantities, amounts, durations: all decimal literals). -/
structure Dec10 where
  m : Int
  s : Nat
deriving DecidableEq, Repr

/-- Numeric equality of two decimals (cross-multiplied, scale-independent). -/
def Dec10.numEq (a b : Dec10) : Bool :=
  a.m * (10 : Int) ^ b.s == b.m * (10 : Int) ^ a.s

/-- Numeric strict order on decimals (JavaScript `<` on numbers). -/
def Dec10.numLt (a b : Dec10) : Bool :=
  a.m * (10 : Int) ^ b.s < b.m * (10 : Int) ^ a.s

/-- Decimal for a natural number (scale 0). -/
def Dec10.ofNat (n : Nat) : Dec10 := ⟨(n : Int), 0⟩

/-- Decimal plus one (used by `Math.max(...) + 1` in `generateId`). -/
def Dec10.addOne (a : Dec10) : Dec10 := ⟨a.m + (10 : Int) ^ a.s, a.s⟩

/-- The larger of two decimals (JavaScript `Math.max` on two numbers). -/
def Dec10.max2 (a b : Dec10) : Dec10 := if Dec10.numLt a b then b else a

/-- Value of a run of ASCII digits as a natural number. -/
def digitsToNat : List Char → Nat → Nat
  | [], acc => acc
  | c :: cs, acc => digitsToNat cs (acc * 10 + (c.toNat - '0'.toNat))

/-- Parse a (sign, integer digits, fraction digits) triple into a decimal. -/
def decOfParts (neg : Bool) (intPart fracPart : List Char) : Dec10 :=
  let mant : Nat := digitsToNat (intPart ++ fracPart) 0
  ⟨if neg then -(mant : Int) else (mant : Int), fracPart.length⟩

/-- `Number(string)` semantics, restricted to the plain decimal grammar
`[+-]? digits [. digits] | [+-]? . digits` that the admin panel's data uses
(no exponents, hex or `Infinity`).  `none` models `NaN`; the empty string
converts to `0` (a JavaScript quirk the code inherits: `isNaN('') === false`). -/
def numParse (str : String) : Option Dec10 :=
  let cs := str.toList
  if cs.isEmpty then some ⟨0, 0⟩
  else
    let (neg, rest) :=
      match cs with
      | '-' :: t => (true, t)
      | '+' :: t => (false, t)
      | t => (false, t)
    let intPart := rest.takeWhile Char.isDigit
    let afterInt := rest.dropWhile Char.isDigit
    match afterInt with
    | [] => if intPart.isEmpty then none else some (decOfParts neg intPart [])
    | '.' :: t =>
        let fracPart := t.takeWhile Char.isDigit
        let afterFrac := t.dropWhile Char.isDigit
        if afterFrac.isEmpty && !(intPart.isEmpty && fracPart.isEmpty) then
          some (decOfParts neg intPart fracPart)
        else none
    | _ => none

/-- `parseFloat(string)` semantics on the same decimal grammar: parses the
longest numeric prefix, `NaN` (`none`) when no digits can be read at the
start.  In particular `parseFloat('') = NaN` although `Number('') = 0`. -/
def parseFloatStr (str : String) : Option Dec10 :=
  let cs := str.toList
  let (neg, rest) :=
    match cs with
    | '-' :: t => (true, t)
    | '+' :: t => (false, t)
    | t => (false, t)
  let intPart := rest.takeWhile Char.isDigit
  let afterInt := rest.dropWhile Char.isDigit
  match afterInt with
  | '.' :: t =>
      let fracPart := t.takeWhile Char.isDigit
      if intPart.isEmpty && fracPart.isEmpty then none
      else some (decOfParts neg intPart fracPart)
  | _ => if intPart.isEmpty then none else some (decOfParts neg intPart [])

/-- `parseInt(string, 10)` semantics on the decimal grammar: optional sign,
then the longest run of digits; `NaN` (`none`) when there is no digit. -/
def parseIntJs (str : String) : Option Int :=
  let cs := str.toList
  let (neg, rest) :=
    match cs with
    | '-' :: t => (true, t)
    | '+' :: t => (false, t)
    | t => (false, t)
  let digits := rest.takeWhile Char.isDigit
  if digits.isEmpty then none
  else
    let v : Nat := digitsToNat digits 0
    some (if neg then -(v : Int) else (v : Int))

/-- Code-unit lexicographic strict order on character lists: the JavaScript
`<` operator on two strings. -/
def lexLt : List Char → List Char → Bool
  | [], [] => false
  | [], _ :: _ => true
  | _ :: _, [] => false
  | a :: as, b :: bs => if a < b then true else if b < a then false else lexLt as bs

/-- `haystack.includes(needle)` on character lists. -/
def listIncl (needle : List Char) : List Char → Bool
  | [] => needle.isEmpty
  | c :: t => needle.isPrefixOf (c :: t) || listIncl needle t

/-- `haystack.includes(needle)` on strings. -/
def strIncl (hay needle : String) : Bool := listIncl needle.toList hay.toList

/-- `string.toLowerCase()`: character-wise lowercasing (the data involved is
ASCII, where this agrees with JavaScript). -/
def lowerStr (str : String) : String := String.mk (str.toList.map Char.toLower)

/- ------------------------------------------------------------------
Pagination (renderTable in orders.js lines 199-203 / products.js 117-120):
  const totalItems = data.length;
  const startIndex = (currentPage - 1) * itemsPerPage;
  const paginatedData = data.slice(startIndex, startIndex + itemsPerPage);
`Array.prototype.slice(start, start + n)` on in-range indices is
drop-then-take.
------------------------------------------------------------------ -/

/-- The pagination step of `renderTable`: slice of at most `pageSize` records
starting at zero-indexed offset `(pageNumber - 1) * pageSize`. -/
def paginate (data : List α) (pageNumber pageSize : Nat) : List α :=
  (data.drop ((pageNumber - 1) * pageSize)).take pageSize

/-- `Math.ceil(totalItems / itemsPerPage)` from `createPagination`
(script.js line 629), for positive `itemsPerPage`. -/
def totalPages (totalItems itemsPerPage : Nat) : Nat :=
  (totalItems + itemsPerPage - 1) / itemsPerPage

/- ------------------------------------------------------------------
Orders and their filters (orders.js).

applyFilters (orders.js lines 284-306) reads three criteria from the UI --
the lowercased search term, the status filter and the payment filter -- and
keeps the records for which every criterion matches, an unset criterion
matching everything:
  const matchesSearch = !searchTerm ||
      item.clientName.toLowerCase().includes(searchTerm) ||
      item.products.toLowerCase().includes(searchTerm) ||
      item.id.toString().includes(searchTerm);
  const matchesStatus = !statusFilter || item.status === statusFilter;
  const matchesPayment = !paymentFilter || item.paymentStatus === paymentFilter;
  return matchesSearch && matchesStatus && matchesPayment;
------------------------------------------------------------------ -/

/-- An order record (data model of the `orders` collection). -/
structure Order where
  id : Nat
  clientId : Int
  clientName : String
  products : String
  quantity : Int
  amount : Dec10
  status : String
  paymentStatus : String
  address : String
  createdAt : String
  notes : String
deriving DecidableEq, Repr

/-- The three filter criteria read from the orders page UI; `searchTerm` is
the search input already lowercased (`.value.toLowerCase()`). -/
structure OrderCriteria where
  searchTerm : String
  statusFilter : String
  paymentFilter : String
deriving DecidableEq, Repr

/-- The per-record predicate of `applyFilters` (orders.js lines 290-305). -/
def orderMatches (c : OrderCriteria) (item : Order) : Bool :=
  (c.searchTerm == "" ||
    strIncl (lowerStr item.clientName) c.searchTerm ||
    strIncl (lowerStr item.products) c.searchTerm ||
    strIncl (toString item.id) c.searchTerm) &&
  (c.statusFilter == "" || item.status == c.statusFilter) &&
  (c.paymentFilter == "" || item.paymentStatus == c.paymentFilter)

/-- `applyFilters` (orders.js lines 284-306): `data.filter(item => ...)`. -/
def applyFilters (c : OrderCriteria) (data : List Order) : List Order :=
  data.filter (orderMatches c)

/-- "Matches every non-empty criterion", the specification's reading: each
criterion that is set must hold of the record; an empty criterion imposes
nothing. -/
def MatchesEveryNonEmpty (c : OrderCriteria) (item : Order) : Prop :=
  (c.searchTerm ≠ "" →
    (strIncl (lowerStr item.clientName) c.searchTerm = true ∨
     strIncl (lowerStr item.products) c.searchTerm = true ∨
     strIncl (toString item.id) c.searchTerm = true)) ∧
  (c.statusFilter ≠ "" → item.status = c.statusFilter) ∧
  (c.paymentFilter ≠ "" → item.paymentStatus = c.paymentFilter)

/- ------------------------------------------------------------------
Generic records and the sort comparator (script.js sortData, lines 590-609):

  function sortData(data, column, direction) {
      return [...data].sort((a, b) => {
          let valA = a[column];
          let valB = b[column];
          if (!isNaN(valA) && !isNaN(valB)) {
              valA = parseFloat(valA);
              valB = parseFloat(valB);
          }
          if (typeof valA === 'string') valA = valA.toLowerCase();
          if (typeof valB === 'string') valB = valB.toLowerCase();
          if (valA < valB) return direction === 'asc' ? -1 : 1;
          if (valA > valB) return direction === 'asc' ? 1 : -1;
          return 0;
      });
  }

sortData is generic over duck-typed records, so records are modelled as
association lists from field names to JavaScript values; reading an absent
field gives `undefined`.  `Array.prototype.sort` is required by the
ECMAScript specification to be stable, so it is modelled by a stable
insertion sort parameterised by the translated comparator (for consistent
comparators every stable sort produces the same output).
------------------------------------------------------------------ -/

/-- A JavaScript value as stored in the admin panel records: a number, a
string, a boolean, `undefined` (absent field), or `NaN`. -/
inductive Jsv where
  | num (v : Dec10)
  | str (s : String)
  | bool (b : Bool)
  | undefined
  | nan
deriving DecidableEq, Repr

/-- A duck-typed record: an association list from field names to values. -/
structure JRecord where
  fields : List (String × Jsv)
deriving DecidableEq, Repr

/-- `record[column]`: the first binding of the field, `undefined` if absent. -/
def JRecord.get (r : JRecord) (key : String) : Jsv :=
  match r.fields.find? (fun p => p.1 == key) with
  | some p => p.2
  | none => .undefined

/-- `Number(v)` coercion; `none` models `NaN`. -/
def toNumberJs : Jsv → Option Dec10
  | .num v => some v
  | .str s => numParse s
  | .bool b => some ⟨if b then 1 else 0, 0⟩
  | .undefined => none
  | .nan => none

/-- `isNaN(v)`: whether the numeric coercion of `v` is `NaN`. -/
def isNaNJs (v : Jsv) : Bool := (toNumberJs v).isNone

/-- `parseFloat(v)` (after `String(v)` coercion); `none` models `NaN`.
Notably `parseFloat('') = NaN` even though `isNaN('') = false`, and
`parseFloat(true) = NaN`. -/
def parseFloatJs : Jsv → Option Dec10
  | .num v => some v
  | .str s => parseFloatStr s
  | .bool _ => none
  | .undefined => none
  | .nan => none

/-- Repack an optional number as a value (`none` becomes `NaN`). -/
def ofOptNum : Option Dec10 → Jsv
  | some v => .num v
  | none => .nan

/-- The `typeof v === 'string'`-guarded lowercasing step of the comparator. -/
def lowerJsv : Jsv → Jsv
  | .str s => .str (lowerStr s)
  | v => v

/-- The comparator's key extraction: read the column from both records, parse
both as numbers when neither coerces to `NaN`, then lowercase strings. -/
def keyVals (column : String) (a b : JRecord) : Jsv × Jsv :=
  let valA := a.get column
  let valB := b.get column
  let pair := if !(isNaNJs valA) && !(isNaNJs valB)
    then (ofOptNum (parseFloatJs valA), ofOptNum (parseFloatJs valB))
    else (valA, valB)
  (lowerJsv pair.1, lowerJsv pair.2)

/-- The JavaScript `<` operator on primitive values: string-to-string
comparisons are lexicographic on code units, every other combination
coerces both sides to numbers and is `false` whenever either is `NaN`. -/
def jsLt (x y : Jsv) : Bool :=
  match x, y with
  | .str s, .str t => lexLt s.toList t.toList
  | x, y =>
    match toNumberJs x, toNumberJs y with
    | some a, some b => Dec10.numLt a b
    | _, _ => false

/-- The `sortData` comparator (script.js lines 591-608). -/
def cmpJs (column direction : String) (a b : JRecord) : Int :=
  let p := keyVals column a b
  if jsLt p.1 p.2 then (if direction == "asc" then -1 else 1)
  else if jsLt p.2 p.1 then (if direction == "asc" then 1 else -1)
  else 0

/-- One step of the stable insertion sort, operating on the reversed sorted
prefix: the new element moves left past exactly the elements it compares
strictly below, hence lands after every element it ties with. -/
def insertRev (cmp : α → α → Int) (x : α) : List α → List α
  | [] => [x]
  | y :: ys => if cmp x y < 0 then y :: insertRev cmp x ys else x :: y :: ys

/-- `sortData(data, column, direction)` (script.js lines 590-609):
`[...data].sort(comparator)`, modelled as a stable insertion sort. -/
def sortData (data : List JRecord) (column direction : String) : List JRecord :=
  (data.foldl (fun acc r => insertRev (cmpJs column direction) r acc) []).reverse

/- ------------------------------------------------------------------
JavaScript equality operators, number rendering, and the fallible version
of the orders filter (for failure-semantics claims).
------------------------------------------------------------------ -/

/-- JavaScript strict equality `===` on primitive values: equal only with
the same type and same value, `NaN` equal to nothing. -/
def jsStrictEq (a b : Jsv) : Bool :=
  match a, b with
  | .num x, .num y => Dec10.numEq x y
  | .str s, .str t => s == t
  | .bool x, .bool y => x == y
  | .undefined, .undefined => true
  | _, _ => false

/-- JavaScript loose equality `==` on primitive values: same-type pairs
compare as `===`, number/string/boolean mixes coerce to numbers, `undefined`
equals only `undefined` (and `null`), `NaN` equals nothing. -/
def looseEqJs (a b : Jsv) : Bool :=
  match a, b with
  | .num x, .num y => Dec10.numEq x y
  | .str s, .str t => s == t
  | .bool x, .bool y => x == y
  | .undefined, .undefined => true
  | .num x, .str s => (numParse s).elim false (fun y => Dec10.numEq x y)
  | .str s, .num y => (numParse s).elim false (fun x => Dec10.numEq x y)
  | .bool x, .num y => Dec10.numEq ⟨if x then 1 else 0, 0⟩ y
  | .num x, .bool y => Dec10.numEq x ⟨if y then 1 else 0, 0⟩
  | .bool x, .str s => (numParse s).elim false (fun y => Dec10.numEq ⟨if x then 1 else 0, 0⟩ y)
  | .str s, .bool y => (numParse s).elim false (fun x => Dec10.numEq x ⟨if y then 1 else 0, 0⟩)
  | _, _ => false

/-- Strip trailing decimal zeros from a mantissa/scale pair (JavaScript
renders the number 2.0 as the string `"2"`). -/
def normAux (m : Int) : Nat → Int × Nat
  | 0 => (m, 0)
  | s + 1 => if m % 10 == 0 then normAux (m / 10) s else (m, s + 1)

/-- `String(number)` rendering of a decimal: sign, integer digits, and a
fractional part only when nonzero. -/
def decRender (d : Dec10) : String :=
  let p := normAux d.m d.s
  let neg := decide (p.1 < 0)
  let ds := (toString p.1.natAbs).toList
  let ds2 := if ds.length ≤ p.2 then List.replicate (p.2 + 1 - ds.length) '0' ++ ds else ds
  let ip := ds2.take (ds2.length - p.2)
  let fp := ds2.drop (ds2.length - p.2)
  String.mk ((if neg then ['-'] else []) ++ ip ++ (if p.2 == 0 then [] else '.' :: fp))

/-- `v.toLowerCase()`: defined on strings only; on any other value the call
is a TypeError, modelled as `Except.error`. -/
def toLowerE (v : Jsv) : Except Unit String :=
  match v with
  | .str s => .ok (lowerStr s)
  | _ => .error ()

/-- `v.toString()`: defined on numbers, strings and booleans; calling it on
`undefined` is a TypeError, modelled as `Except.error`. -/
def toStringE (v : Jsv) : Except Unit String :=
  match v with
  | .num d => .ok (decRender d)
  | .str s => .ok s
  | .bool b => .ok (if b then "true" else "false")
  | .undefined => .error ()
  | .nan => .ok "NaN"

/-- The per-record predicate of the orders `applyFilters`, over duck-typed
records, with the exceptions JavaScript can raise: when the search term is
non-empty the code calls `item.clientName.toLowerCase()`,
`item.products.toLowerCase()` and `item.id.toString()` unguarded, in this
short-circuit order (orders.js lines 292-295). -/
def orderPredE (c : OrderCriteria) (item : JRecord) : Except Unit Bool := do
  let ms ←
    if c.searchTerm == "" then pure true
    else do
      let cn ← toLowerE (item.get "clientName")
      if strIncl cn c.searchTerm then pure true
      else do
        let pr ← toLowerE (item.get "products")
        if strIncl pr c.searchTerm then pure true
        else do
          let ids ← toStringE (item.get "id")
          pure (strIncl ids c.searchTerm)
  let mst := c.statusFilter == "" || jsStrictEq (item.get "status") (.str c.statusFilter)
  let mp := c.paymentFilter == "" || jsStrictEq (item.get "paymentStatus") (.str c.paymentFilter)
  pure (ms && mst && mp)

/-- `applyFilters` over duck-typed records with JavaScript's exception
behaviour: `data.filter(...)` evaluated left to right, propagating the
first thrown TypeError. -/
def applyFiltersE (c : OrderCriteria) : List JRecord → Except Unit (List JRecord)
  | [] => .ok []
  | r :: rs => do
    let b ← orderPredE c r
    let rest ← applyFiltersE c rs
    pure (if b then r :: rest else rest)

/-- A record all of whose searched fields support the orders filter's
unguarded method calls: string `clientName` and `products`, and an `id`
that is not `undefined`. -/
def WellFormedSearchable (r : JRecord) : Prop :=
  (∃ s, r.get "clientName" = .str s) ∧ (∃ s, r.get "products" = .str s) ∧
    r.get "id" ≠ .undefined

/- ------------------------------------------------------------------
Create/update/delete paths of the entity form controllers.

orders.js lines 534-541 (update branch of handleFormSubmit):
  const index = data.findIndex(item => item.id === editingId);
  if (index !== -1) { data[index] = { ...data[index], ...formData }; }
products.js (part_000) lines 342-348: the same merge pattern.
clients.js lines 243-247: clients[index] = clientData      (full replace)
users.js (part_001) lines 281-284: users[index] = userData (full replace)
deliveries.js (part_002) lines 294-297: deliveries[index] = deliveryData.
------------------------------------------------------------------ -/

/-- `{ ...old, ...patch }`: shallow merge, bindings of `patch` win.  Lookup
takes the first binding, so the patch is prepended. -/
def mergeJ (old : JRecord) (patch : List (String × Jsv)) : JRecord :=
  ⟨patch ++ old.fields⟩

/-- `data.findIndex(p)` followed by `data[index] = g(data[index])` when the
index is not -1: replace the first matching record, leave everything else. -/
def updateFirstMatch (p : JRecord → Bool) (g : JRecord → JRecord) :
    List JRecord → List JRecord
  | [] => []
  | r :: rs => if p r then g r :: rs else r :: updateFirstMatch p g rs

/-- An `Option Int` as a JavaScript value (`parseInt` result: `NaN` on
`none`). -/
def jsvOfOptInt : Option Int → Jsv
  | some n => .num ⟨n, 0⟩
  | none => .nan

/-- The raw string values read from the order form's inputs. -/
structure OrderForm where
  client : String
  product : String
  quantity : String
  amount : String
  status : String
  payment : String
  address : String
  notes : String
deriving DecidableEq, Repr

/-- The `formData` object built by the orders `handleFormSubmit` (orders.js
lines 508-523): parsed client id, denormalized client name (fallback
`'Client inconnu'`), and the remaining form values.  Note there is no `id`
key. -/
def orderFormData (f : OrderForm) (clients : List JRecord) : List (String × Jsv) :=
  let clientId := jsvOfOptInt (parseIntJs f.client)
  let client := clients.find? (fun c => jsStrictEq (c.get "id") clientId)
  [("clientId", clientId),
   ("clientName", match client with | some c => c.get "name" | none => .str "Client inconnu"),
   ("products", .str f.product),
   ("quantity", jsvOfOptInt (parseIntJs f.quantity)),
   ("amount", ofOptNum (parseFloatStr f.amount)),
   ("status", .str f.status),
   ("paymentStatus", .str f.payment),
   ("address", .str f.address),
   ("notes", .str f.notes)]

/-- The update branch of the orders `handleFormSubmit` (orders.js lines
534-541): find the record whose `id` is strictly equal to `editingId` and
merge the form data over it. -/
def ordersUpdate (editingId : Int) (f : OrderForm) (clients data : List JRecord) :
    List JRecord :=
  updateFirstMatch (fun item => jsStrictEq (item.get "id") (.num ⟨editingId, 0⟩))
    (fun item => mergeJ item (orderFormData f clients)) data

/-- The raw string values read from the product form's inputs (`name` and
`supplier` after `.trim()`). -/
structure ProductForm where
  name : String
  category : String
  price : String
  stock : String
  supplier : String
  availability : String
deriving DecidableEq, Repr

/-- The `formData` object built by the products `handleFormSubmit`
(part_000 lines 325-332).  No `id` key. -/
def productFormFields (f : ProductForm) : List (String × Jsv) :=
  [("name", .str f.name),
   ("category", .str f.category),
   ("price", ofOptNum (parseFloatStr f.price)),
   ("stock", jsvOfOptInt (parseIntJs f.stock)),
   ("supplier", .str f.supplier),
   ("available", .bool (f.availability == "Disponible"))]

/-- The update branch of the products `handleFormSubmit` (part_000 lines
342-348): the same merge `data[index] = { ...data[index], ...formData }`
pattern as orders. -/
def productsUpdate (editingId : Int) (f : ProductForm) (data : List JRecord) :
    List JRecord :=
  updateFirstMatch (fun item => jsStrictEq (item.get "id") (.num ⟨editingId, 0⟩))
    (fun item => mergeJ item (productFormFields f)) data

/-- `Math.max` over a spread of coerced ids: `NaN` if any id fails to
coerce, otherwise the maximum.  The head seeds the fold (the guarded call
sites never pass an empty list). -/
def jsMaxNum : List (Option Dec10) → Option Dec10
  | [] => none
  | v :: vs => vs.foldl
      (fun acc o =>
        match acc, o with
        | some a, some b => some (Dec10.max2 a b)
        | _, _ => none) v

/-- `generateId(dataKey)` (script.js lines 440-444) over duck-typed records:
`data.length > 0 ? Math.max(...data.map(item => item.id)) + 1 : 1`. -/
def jGenerateId (data : List JRecord) : Jsv :=
  if data.length > 0 then
    match jsMaxNum (data.map (fun r => toNumberJs (r.get "id"))) with
    | some m => .num (Dec10.addOne m)
    | none => .nan
  else .num ⟨1, 0⟩

/-- The raw string values read from the client form (clients.js): the
hidden `entityId` is `''` when adding. -/
structure ClientForm where
  entityId : String
  name : String
  email : String
  phone : String
  type : String
  city : String
  orders : String
  address : String
deriving DecidableEq, Repr

/-- The `clientData` object built by the clients `handleFormSubmit`
(clients.js lines 231-241): a complete record, with `id` taken from the
hidden field (or freshly generated) and `orders` defaulted to 0 via `|| 0`.
There is no `createdAt` key. -/
def clientFormRecord (clients : List JRecord) (f : ClientForm) : JRecord :=
  ⟨[("id", if f.entityId == "" then jGenerateId clients else jsvOfOptInt (parseIntJs f.entityId)),
    ("name", .str f.name),
    ("email", .str f.email),
    ("phone", .str f.phone),
    ("type", .str f.type),
    ("city", .str f.city),
    ("orders", .num ⟨(parseIntJs f.orders).getD 0, 0⟩),
    ("address", .str f.address)]⟩

/-- The update branch of the clients `handleFormSubmit` (clients.js lines
243-246): `clients.findIndex(c => c.id == id)` (loose equality against the
hidden field's string) and wholesale assignment `clients[index] = clientData`. -/
def clientsUpdate (f : ClientForm) (data : List JRecord) : List JRecord :=
  updateFirstMatch (fun c => looseEqJs (c.get "id") (.str f.entityId))
    (fun _ => clientFormRecord data f) data

/-- The raw string values read from the user form (part_001). -/
structure UserForm where
  entityId : String
  name : String
  email : String
  role : String
  status : String
  phone : String
deriving DecidableEq, Repr

/-- The `userData` object built by the users `handleFormSubmit` (part_001
lines 270-279): a complete record; when editing, `createdAt` is copied from
the first stored user matching the id loosely (`users.find(u => u.id ==
id).createdAt`); when adding it is the current timestamp `now`. -/
def userFormRecord (users : List JRecord) (f : UserForm) (now : String) : JRecord :=
  ⟨[("id", if f.entityId == "" then jGenerateId users else jsvOfOptInt (parseIntJs f.entityId)),
    ("name", .str f.name),
    ("email", .str f.email),
    ("role", .str f.role),
    ("status", .str f.status),
    ("phone", .str f.phone),
    ("createdAt",
      if f.entityId == "" then .str now
      else (users.find? (fun u => looseEqJs (u.get "id") (.str f.entityId))).elim
        .undefined (fun u => u.get "createdAt"))]⟩

/-- The update branch of the users `handleFormSubmit` (part_001 lines
281-284): loose-equality findIndex and wholesale assignment
`users[index] = userData`. -/
def usersUpdate (f : UserForm) (now : String) (data : List JRecord) : List JRecord :=
  updateFirstMatch (fun u => looseEqJs (u.get "id") (.str f.entityId))
    (fun _ => userFormRecord data f now) data

/-- The raw string values read from the delivery form (part_002); all DOM
`.value` reads are strings. -/
structure DeliveryForm where
  entityId : String
  orderId : String
  driver : String
  status : String
  duration : String
  address : String
  notes : String
deriving DecidableEq, Repr

/-- The `deliveryData` object built by the deliveries `handleFormSubmit`
(part_002 lines 283-292): only `id` goes through `parseInt`; `orderId` and
`duration` are stored as the raw form strings; `date` is kept from the
stored record when editing, else the current timestamp. -/
def deliveryFormRecord (deliveries : List JRecord) (f : DeliveryForm) (now : String) :
    JRecord :=
  ⟨[("id", if f.entityId == "" then jGenerateId deliveries else jsvOfOptInt (parseIntJs f.entityId)),
    ("orderId", .str f.orderId),
    ("driver", .str f.driver),
    ("status", .str f.status),
    ("duration", .str f.duration),
    ("address", .str f.address),
    ("notes", .str f.notes),
    ("date",
      if f.entityId == "" then .str now
      else (deliveries.find? (fun d => looseEqJs (d.get "id") (.str f.entityId))).elim
        .undefined (fun d => d.get "date"))]⟩

/-- The deliveries `handleFormSubmit` (part_002 lines 278-301): build
`deliveryData`, then either replace the loosely-matching record (edit) or
push at the end (create). -/
def deliveriesHandleFormSubmit (f : DeliveryForm) (now : String)
    (deliveries : List JRecord) : List JRecord :=
  let dd := deliveryFormRecord deliveries f now
  if f.entityId == "" then deliveries ++ [dd]
  else updateFirstMatch (fun d => looseEqJs (d.get "id") (.str f.entityId))
    (fun _ => dd) deliveries

/-- The pre-selection test of the deliveries `openModal` (part_002 line
227): `delivery.orderId == order.id`, loose equality between the stored
(string) order id and the (numeric) order id. -/
def orderOptionSelected (delivery order : JRecord) : Bool :=
  looseEqJs (delivery.get "orderId") (order.get "id")

/- ------------------------------------------------------------------
Typed id allocation and deletion (script.js generateId lines 440-444,
orders.js confirmDelete lines 686-707, users.js deleteUser lines 317-324).
------------------------------------------------------------------ -/

/-- `Math.max(...ids)` for a list of natural ids, seeded with 0 (equal to
the true maximum on any non-empty list of naturals). -/
def maxIds (ids : List Nat) : Nat := ids.foldl Nat.max 0

/-- `generateId(dataKey)` (script.js lines 440-444) over a typed collection:
`data.length > 0 ? Math.max(...data.map(item => item.id)) + 1 : 1`. -/
def generateId {α : Type} (idOf : α → Nat) (data : List α) : Nat :=
  if data.length > 0 then maxIds (data.map idOf) + 1 else 1

/-- A record with only an id, for stating the specification's example
collection `[{id:1},{id:3}]`. -/
structure BareRec where
  id : Nat
deriving DecidableEq, Repr

/-- A user record (data model of the `users` collection). -/
structure User where
  id : Nat
  name : String
  email : String
  role : String
  status : String
  phone : String
  createdAt : String
deriving DecidableEq, Repr

/-- The common delete path: `data.filter(item => item.id !== deletedId)`
(orders.js confirmDelete line 693, part_001 deleteUser line 320). -/
def deleteById {α : Type} (idOf : α → Nat) (idv : Nat) (data : List α) : List α :=
  data.filter (fun item => idOf item != idv)

/-- `confirmDelete` (orders.js lines 686-707), the storage update only. -/
def confirmDelete (deleteId : Nat) (data : List Order) : List Order :=
  deleteById Order.id deleteId data

/-- `deleteUser` (part_001 lines 317-324), the storage update only. -/
def deleteUser (id : Nat) (users : List User) : List User :=
  deleteById User.id id users

/- ==================================================================
Theorems.  Helper lemmas first, then one theorem per claim (with a
witness where the claim's theorem carries hypotheses).
================================================================== -/
/-- Claim C1: for every record sequence, `pageSize > 0` and 1-indexed page
`p`, the pagination step returns the slice starting at zero-indexed offset
`(p-1)*pageSize` with at most `pageSize` records, and a page number beyond
the last page yields the empty slice (no clamping). -/
theorem paginate_spec {α : Type} (data : List α) (p size : Nat)
    (hp : 1 ≤ p) (hsize : 0 < size) :
    (paginate data p size).length ≤ size ∧
    (∀ i, i < (paginate data p size).length →
      (paginate data p size)[i]? = data[(p - 1) * size + i]?) ∧
    (totalPages data.length size < p → paginate data p size = []) := by
  refine ⟨?_, ?_, ?_⟩
  · simp [paginate]
  · intro i hi
    have hilt : i < size := by
      have := (List.length_take size (data.drop ((p - 1) * size))) ▸ hi
      omega
    simp [paginate, List.getElem?_take, hilt, List.getElem?_drop]
  · intro hbeyond
    obtain ⟨q, rfl⟩ : ∃ q, p = q + 1 := ⟨p - 1, by omega⟩
    have hlen : data.length ≤ (q + 1 - 1) * size := by
      have h1 : data.length + size - 1 < (q + 1) * size :=
        (Nat.div_lt_iff_lt_mul hsize).mp hbeyond
      have h2 : (q + 1) * size = q * size + size := by ring
      have h3 : q + 1 - 1 = q := by omega
      rw [h3]
      omega
    have h3 : q + 1 - 1 = q := by omega
    rw [h3] at hlen
    simp [paginate, List.drop_eq_nil_of_le hlen, h3]

/-- Witness for C1 at a concrete input: 5 records, page 2 of size 2 is the
slice [3, 4]; page 4 is beyond the last of 3 pages and comes back empty. -/
theorem paginate_spec_witness :
    (paginate [10, 20, 30, 40, 50] 2 2).length ≤ 2 ∧
    (∀ i, i < (paginate [10, 20, 30, 40, 50] 2 2).length →
      (paginate [10, 20, 30, 40, 50] 2 2)[i]? = [10, 20, 30, 40, 50][(2 - 1) * 2 + i]?) ∧
    (totalPages ([10, 20, 30, 40, 50] : List Nat).length 2 < 4 →
      paginate [10, 20, 30, 40, 50] 4 2 = []) := by
  refine ⟨(paginate_spec [10, 20, 30, 40, 50] 2 2 (by decide) (by decide)).1,
          (paginate_spec [10, 20, 30, 40, 50] 2 2 (by decide) (by decide)).2.1,
          (paginate_spec [10, 20, 30, 40, 50] 4 2 (by decide) (by decide)).2.2⟩


/-- The Boolean filter predicate agrees with the conjunction-of-non-empty-
criteria reading. -/
theorem orderMatches_iff (c : OrderCriteria) (item : Order) :
    orderMatches c item = true ↔ MatchesEveryNonEmpty c item := by
  simp only [orderMatches, MatchesEveryNonEmpty, Bool.and_eq_true, Bool.or_eq_true,
    beq_iff_eq]
  tauto

/-- Claim C2: a record appears in the output of `applyFilters` iff it matches
every non-empty criterion, and when all criteria are empty `applyFilters`
returns the original sequence unchanged (in order). -/
theorem applyFilters_conjunction (c : OrderCriteria) (data : List Order) :
    (∀ item ∈ data, (item ∈ applyFilters c data ↔ MatchesEveryNonEmpty c item)) ∧
    (c.searchTerm = "" → c.statusFilter = "" → c.paymentFilter = "" →
      applyFilters c data = data) := by
  constructor
  · intro item hmem
    rw [applyFilters, List.mem_filter]
    constructor
    · intro h
      exact (orderMatches_iff c item).mp h.2
    · intro h
      exact ⟨hmem, (orderMatches_iff c item).mpr h⟩
  · intro h1 h2 h3
    rw [applyFilters, List.filter_eq_self]
    intro item _
    simp [orderMatches, h1, h2, h3]

/-- Witness for C2 at a concrete input: with search term `"pizza"` and the
status filter `"Livrée"`, a matching record is kept. -/
theorem applyFilters_conjunction_witness :
    let o : Order := ⟨1, 1, "Marie Martin", "Pizza Margherita x2", 2, ⟨2598, 2⟩,
      "Livrée", "Payée", "12 Rue de Paris", "2024-04-01", ""⟩
    let c : OrderCriteria := ⟨"pizza", "Livrée", ""⟩
    o ∈ applyFilters c [o] := by
  intro o c
  exact ((applyFilters_conjunction c [o]).1 o (by simp)).mpr
    ⟨fun _ => Or.inr (Or.inl (by decide)), fun _ => rfl, fun h => absurd rfl h⟩

/- Stability of the insertion-sort model of `Array.prototype.sort`. -/

/-- Inserting never drops elements: the old reversed prefix is a sublist of
the new one. -/
theorem sublist_insertRev (cmp : α → α → Int) (x : α) (l : List α) :
    List.Sublist l (insertRev cmp x l) := by
  induction l with
  | nil => exact List.nil_sublist _
  | cons y ys ih =>
    rw [insertRev]
    split
    · exact List.Sublist.cons₂ y ih
    · exact List.sublist_cons_self x (y :: ys)

/-- The inserted element is in the result. -/
theorem mem_insertRev_self (cmp : α → α → Int) (x : α) (l : List α) :
    x ∈ insertRev cmp x l := by
  induction l with
  | nil => simp [insertRev]
  | cons y ys ih =>
    rw [insertRev]
    split
    · exact List.mem_cons_of_mem y ih
    · exact List.mem_cons_self x (y :: ys)

/-- An element `x` that does not compare strictly below `a` never moves past
an occurrence of `a`: in the reversed prefix it lands before `a`. -/
theorem insertRev_pair (cmp : α → α → Int) {x a : α} (h0 : ¬ cmp x a < 0) :
    ∀ {l : List α}, a ∈ l → List.Sublist [x, a] (insertRev cmp x l) := by
  intro l
  induction l with
  | nil => intro h; exact absurd h (List.not_mem_nil a)
  | cons y ys ih =>
    intro hmem
    rw [insertRev]
    split
    · rename_i hxy
      rcases List.mem_cons.mp hmem with rfl | hmem2
      · exact absurd hxy h0
      · exact List.Sublist.cons y (ih hmem2)
    · exact List.Sublist.cons₂ x (List.singleton_sublist.mpr hmem)

/-- Invariant of the insertion-sort fold: once `a` precedes `b` in the
input (and `b` does not compare strictly below `a`), `b` precedes `a` in
the reversed accumulator. -/
theorem foldl_insertRev_stable (cmp : α → α → Int) {a b : α} (h0 : ¬ cmp b a < 0) :
    ∀ (l acc : List α),
      (List.Sublist [a, b] l ∨ (a ∈ acc ∧ b ∈ l) ∨ List.Sublist [b, a] acc) →
      List.Sublist [b, a] (l.foldl (fun acc x => insertRev cmp x acc) acc) := by
  intro l
  induction l with
  | nil =>
    intro acc inv
    rcases inv with h | ⟨_, hb⟩ | h
    · exact absurd (List.sublist_nil.mp h) (by simp)
    · exact absurd hb (List.not_mem_nil b)
    · simpa using h
  | cons x xs ih =>
    intro acc inv
    rw [List.foldl_cons]
    apply ih
    rcases inv with h | ⟨ha, hb⟩ | h
    · cases h with
      | cons _ h2 => exact Or.inl h2
      | cons₂ _ h2 =>
        exact Or.inr (Or.inl ⟨mem_insertRev_self cmp a acc, List.singleton_sublist.mp h2⟩)
    · rcases List.mem_cons.mp hb with heq | hb2
      · subst heq
        exact Or.inr (Or.inr (insertRev_pair cmp h0 ha))
      · exact Or.inr (Or.inl ⟨(sublist_insertRev cmp x acc).mem ha, hb2⟩)
    · exact Or.inr (Or.inr (h.trans (sublist_insertRev cmp x acc)))

/-- Swapping the records swaps the comparator's extracted key pair. -/
theorem keyVals_swap (column : String) (a b : JRecord) :
    keyVals column b a = ((keyVals column a b).2, (keyVals column a b).1) := by
  unfold keyVals
  cases h1 : isNaNJs (a.get column) <;> cases h2 : isNaNJs (b.get column) <;>
    simp [h1, h2]

/-- If the comparator ties on `(a, b)` it also ties on `(b, a)`. -/
theorem cmpJs_zero_symm {column direction : String} {a b : JRecord}
    (h : cmpJs column direction a b = 0) : cmpJs column direction b a = 0 := by
  unfold cmpJs at h ⊢
  rw [keyVals_swap]
  by_cases h1 : jsLt (keyVals column a b).1 (keyVals column a b).2
  · exfalso
    simp [h1] at h
    split at h <;> omega
  · by_cases h2 : jsLt (keyVals column a b).2 (keyVals column a b).1
    · exfalso
      simp [h1, h2] at h
      split at h <;> omega
    · simp [h1, h2]

/-- Stability of the full insertion sort, for any comparator: a pair in
input order whose later element does not compare strictly below the earlier
one stays in that order. -/
theorem stable_core (cmp : α → α → Int) {a b : α} {l : List α}
    (h0 : ¬ cmp b a < 0) (h : List.Sublist [a, b] l) :
    List.Sublist [a, b] ((l.foldl (fun acc x => insertRev cmp x acc) []).reverse) := by
  have h2 : List.Sublist [b, a] (l.foldl (fun acc x => insertRev cmp x acc) []) :=
    foldl_insertRev_stable cmp h0 l [] (Or.inl h)
  simpa using h2.reverse

/-- Claim C3: `sortData` is a stable sort: any two records whose sort keys
compare equal (the comparator returns 0) appear in the output in their input
order; and sorting `[{id:1,amount:5},{id:2,amount:5},{id:3,amount:5}]` by
`amount` ascending returns the records with ids 1, 2, 3 in that order. -/
theorem sortData_stable :
    (∀ (l : List JRecord) (column direction : String) (a b : JRecord),
      List.Sublist [a, b] l → cmpJs column direction a b = 0 →
      List.Sublist [a, b] (sortData l column direction)) ∧
    sortData
      [⟨[("id", .num ⟨1, 0⟩), ("amount", .num ⟨5, 0⟩)]⟩,
       ⟨[("id", .num ⟨2, 0⟩), ("amount", .num ⟨5, 0⟩)]⟩,
       ⟨[("id", .num ⟨3, 0⟩), ("amount", .num ⟨5, 0⟩)]⟩] "amount" "asc" =
      [⟨[("id", .num ⟨1, 0⟩), ("amount", .num ⟨5, 0⟩)]⟩,
       ⟨[("id", .num ⟨2, 0⟩), ("amount", .num ⟨5, 0⟩)]⟩,
       ⟨[("id", .num ⟨3, 0⟩), ("amount", .num ⟨5, 0⟩)]⟩] := by
  constructor
  · intro l column direction a b hsub h0
    have hsym : ¬ cmpJs column direction b a < 0 := by
      rw [cmpJs_zero_symm h0]
      omega
    exact stable_core (cmpJs column direction) hsym hsub
  · decide

/-- Witness for C3 at a concrete input: two amount-5 records separated by an
amount-7 record keep their relative order after sorting by amount. -/
theorem sortData_stable_witness :
    List.Sublist
      [⟨[("id", .num ⟨1, 0⟩), ("amount", .num ⟨5, 0⟩)]⟩,
       ⟨[("id", .num ⟨2, 0⟩), ("amount", .num ⟨5, 0⟩)]⟩]
      (sortData
        [⟨[("id", .num ⟨1, 0⟩), ("amount", .num ⟨5, 0⟩)]⟩,
         ⟨[("id", .num ⟨9, 0⟩), ("amount", .num ⟨7, 0⟩)]⟩,
         ⟨[("id", .num ⟨2, 0⟩), ("amount", .num ⟨5, 0⟩)]⟩] "amount" "asc") :=
  sortData_stable.1 _ "amount" "asc" _ _ (by decide) (by decide)

/-- Counterexample to claim C4: the comparator detects numbers by value, not
by field, so the string values "10", "2", "1" sort numerically on any field;
no field yields the lexicographic order "1", "10", "2". -/
theorem sortData_lex_field_counterexample :
    sortData [⟨[("v", .str "10")]⟩, ⟨[("v", .str "2")]⟩, ⟨[("v", .str "1")]⟩] "v" "asc" =
      [⟨[("v", .str "1")]⟩, ⟨[("v", .str "2")]⟩, ⟨[("v", .str "10")]⟩] ∧
    sortData [⟨[("v", .str "10")]⟩, ⟨[("v", .str "2")]⟩, ⟨[("v", .str "1")]⟩] "v" "asc" ≠
      [⟨[("v", .str "1")]⟩, ⟨[("v", .str "10")]⟩, ⟨[("v", .str "2")]⟩] := by
  decide

/-- Amended claim C4: values that both parse as numbers always compare
numerically, whatever the field, so "10", "2", "1" ascending yields
"1", "2", "10" on every field; case-insensitive lexicographic comparison
applies only when a value fails to parse as a number, e.g. "b10", "b2",
"b1" ascending yields "b1", "b10", "b2". -/
theorem sortData_numeric_vs_lex :
    sortData [⟨[("v", .str "10")]⟩, ⟨[("v", .str "2")]⟩, ⟨[("v", .str "1")]⟩] "v" "asc" =
      [⟨[("v", .str "1")]⟩, ⟨[("v", .str "2")]⟩, ⟨[("v", .str "10")]⟩] ∧
    sortData [⟨[("v", .str "b10")]⟩, ⟨[("v", .str "b2")]⟩, ⟨[("v", .str "b1")]⟩] "v" "asc" =
      [⟨[("v", .str "b1")]⟩, ⟨[("v", .str "b10")]⟩, ⟨[("v", .str "b2")]⟩] := by
  decide

/- Failure semantics of the pipeline (claim C5). -/


theorem jsLt_undef_left (y : Jsv) : jsLt .undefined y = false := by
  cases y <;> rfl

theorem jsLt_undef_right (x : Jsv) : jsLt x .undefined = false := by
  cases x <;> first
    | rfl
    | (rename_i s; unfold jsLt; simp only [toNumberJs]; cases numParse s <;> rfl)

theorem exceptBind_ok {ε α β : Type} (a : α) (f : α → Except ε β) :
    (Except.ok a >>= f : Except ε β) = f a := rfl

theorem exceptPure {ε α : Type} (a : α) : (pure a : Except ε α) = Except.ok a := rfl

theorem exceptMap_ok {ε α β : Type} (f : α → β) (a : α) :
    (f <$> (Except.ok a : Except ε α)) = Except.ok (f a) := rfl

theorem cmpJs_undef (column direction : String) (a b : JRecord)
    (h : a.get column = .undefined) :
    cmpJs column direction a b = 0 ∧ cmpJs column direction b a = 0 := by
  have h1 : keyVals column a b = (.undefined, lowerJsv (b.get column)) := by
    simp [keyVals, h, isNaNJs, toNumberJs, lowerJsv]
  have h2 : keyVals column b a = (lowerJsv (b.get column), .undefined) := by
    simp [keyVals, h, isNaNJs, toNumberJs, lowerJsv]
  constructor <;> simp [cmpJs, h1, h2, jsLt_undef_left, jsLt_undef_right]

theorem cmpJs_string_fallback (column direction : String) (a b : JRecord)
    (s t : String) (ha : a.get column = .str s) (hb : b.get column = .str t)
    (hs : numParse s = none) :
    cmpJs column direction a b =
      (if lexLt (lowerStr s).toList (lowerStr t).toList then
        (if direction == "asc" then -1 else 1)
       else if lexLt (lowerStr t).toList (lowerStr s).toList then
        (if direction == "asc" then 1 else -1)
       else 0) := by
  have h1 : keyVals column a b = (.str (lowerStr s), .str (lowerStr t)) := by
    simp [keyVals, ha, hb, isNaNJs, toNumberJs, hs, lowerJsv]
  simp [cmpJs, h1, jsLt]

theorem orderPredE_ok (c : OrderCriteria) (r : JRecord)
    (h : c.searchTerm = "" ∨ WellFormedSearchable r) :
    ∃ b, orderPredE c r = .ok b := by
  by_cases hs : c.searchTerm = ""
  · exact ⟨_, by simp [orderPredE, hs, exceptPure, exceptBind_ok]; rfl⟩
  · rcases h with h | ⟨⟨s1, h1⟩, ⟨s2, h2⟩, h3⟩
    · exact absurd h hs
    · have hid : ∃ u, toStringE (r.get "id") = .ok u := by
        cases hv : r.get "id"
        · exact ⟨_, rfl⟩
        · exact ⟨_, rfl⟩
        · exact ⟨_, rfl⟩
        · exact absurd hv h3
        · exact ⟨_, rfl⟩
      obtain ⟨u, hu⟩ := hid
      by_cases hc1 : strIncl (lowerStr s1) c.searchTerm
      · exact ⟨_, by simp [orderPredE, hs, h1, toLowerE, hc1, exceptPure, exceptBind_ok, exceptMap_ok]; rfl⟩
      · by_cases hc2 : strIncl (lowerStr s2) c.searchTerm
        · exact ⟨_, by simp [orderPredE, hs, h1, h2, toLowerE, hc1, hc2, exceptPure, exceptBind_ok, exceptMap_ok]; rfl⟩
        · exact ⟨_, by simp [orderPredE, hs, h1, h2, toLowerE, hc1, hc2, hu, exceptPure, exceptBind_ok, exceptMap_ok]; rfl⟩

theorem applyFiltersE_ok (c : OrderCriteria) (data : List JRecord)
    (h : c.searchTerm = "" ∨ ∀ r ∈ data, WellFormedSearchable r) :
    ∃ out, applyFiltersE c data = .ok out := by
  induction data with
  | nil => exact ⟨[], rfl⟩
  | cons r rs ih =>
    have hr : c.searchTerm = "" ∨ WellFormedSearchable r :=
      h.imp id (fun hh => hh r (List.mem_cons_self r rs))
    have hrs : c.searchTerm = "" ∨ ∀ x ∈ rs, WellFormedSearchable x :=
      h.imp id (fun hh => fun x hx => hh x (List.mem_cons_of_mem r hx))
    obtain ⟨b, hb⟩ := orderPredE_ok c r hr
    obtain ⟨out, hout⟩ := ih hrs
    refine ⟨if b then r :: out else out, ?_⟩
    simp [applyFiltersE, hb, hout, exceptPure, exceptBind_ok]

/-- Counterexample to claim C5: the filter stage does throw on a malformed
record — with search term "a", a record with no `clientName` makes
`applyFilters` raise a TypeError (`item.clientName.toLowerCase()` on
`undefined`); and a record whose sort field is missing compares as equal to
everything (comparator 0 against a record holding "a"), not as the empty
string (which compares strictly below "a"). -/
theorem pipeline_throw_counterexample :
    applyFiltersE ⟨"a", "", ""⟩ [⟨[]⟩] = .error () ∧
    cmpJs "name" "asc" ⟨[]⟩ ⟨[("name", .str "a")]⟩ = 0 ∧
    cmpJs "name" "asc" ⟨[("name", .str "")]⟩ ⟨[("name", .str "a")]⟩ = -1 :=
  ⟨rfl, by decide, by decide⟩

/-- Amended claim C5: sorting and pagination are total, and the filter stage
never throws when the search term is empty or every record's searched fields
are well-formed (string `clientName`/`products`, non-`undefined` `id`); in
the sort comparator, a missing field compares as equal to every value
(the comparator returns 0 both ways), and a field value that does not parse
as a number, compared against another string, falls back to
case-insensitive lexicographic string comparison. -/
theorem pipeline_failure_semantics :
    (∀ (c : OrderCriteria) (data : List JRecord),
      (c.searchTerm = "" ∨ ∀ r ∈ data, WellFormedSearchable r) →
      ∃ out, applyFiltersE c data = .ok out) ∧
    (∀ (column direction : String) (a b : JRecord), a.get column = .undefined →
      cmpJs column direction a b = 0 ∧ cmpJs column direction b a = 0) ∧
    (∀ (column direction : String) (a b : JRecord) (s t : String),
      a.get column = .str s → b.get column = .str t → numParse s = none →
      cmpJs column direction a b =
        (if lexLt (lowerStr s).toList (lowerStr t).toList then
          (if direction == "asc" then -1 else 1)
         else if lexLt (lowerStr t).toList (lowerStr s).toList then
          (if direction == "asc" then 1 else -1)
         else 0)) :=
  ⟨fun c data h => applyFiltersE_ok c data h,
   fun column direction a b h => cmpJs_undef column direction a b h,
   fun column direction a b s t ha hb hs =>
     cmpJs_string_fallback column direction a b s t ha hb hs⟩

/-- Witness for the amended C5 at concrete inputs: a well-formed record
passes the filter without throwing; a record missing field "x" ties with a
record holding "q" there; "b10" against "b2" falls back to lexicographic
comparison and sorts below. -/
theorem pipeline_failure_semantics_witness :
    (∃ out, applyFiltersE ⟨"a", "", ""⟩
      [⟨[("clientName", .str "Ann"), ("products", .str "Pizza"), ("id", .num ⟨1, 0⟩)]⟩] =
        .ok out) ∧
    cmpJs "x" "asc" ⟨[]⟩ ⟨[("x", .str "q")]⟩ = 0 ∧
    cmpJs "v" "asc" ⟨[("v", .str "b10")]⟩ ⟨[("v", .str "b2")]⟩ = -1 := by
  refine ⟨pipeline_failure_semantics.1 _ _ (Or.inr ?_), 
    (pipeline_failure_semantics.2.1 "x" "asc" ⟨[]⟩ ⟨[("x", .str "q")]⟩ rfl).1, ?_⟩
  · intro r hr
    rw [List.mem_singleton] at hr
    subst hr
    exact ⟨⟨"Ann", rfl⟩, ⟨"Pizza", rfl⟩, by decide⟩
  · rw [pipeline_failure_semantics.2.2 "v" "asc" ⟨[("v", .str "b10")]⟩
      ⟨[("v", .str "b2")]⟩ "b10" "b2" rfl rfl (by decide)]
    decide

/- Id allocation (claim C6). -/

/-- The fold seed never exceeds the fold of `Nat.max`. -/

theorem le_foldl_max (l : List Nat) (a : Nat) : a ≤ l.foldl Nat.max a := by
  induction l generalizing a with
  | nil => exact le_refl a
  | cons x xs ih => exact le_trans (Nat.le_max_left a x) (ih (Nat.max a x))

/-- Every member is bounded by the `Nat.max` fold. -/
theorem mem_le_foldl_max : ∀ (l : List Nat) (a : Nat) {x : Nat}, x ∈ l →
    x ≤ l.foldl Nat.max a := by
  intro l
  induction l with
  | nil => intro a x h; cases h
  | cons y ys ih =>
    intro a x h
    rcases List.mem_cons.mp h with rfl | h2
    · exact le_trans (Nat.le_max_right a x) (le_foldl_max ys (Nat.max a x))
    · exact ih (Nat.max a y) h2

/-- The `Nat.max` fold is a member of the list or the seed itself. -/
theorem foldl_max_mem (l : List Nat) (a : Nat) :
    l.foldl Nat.max a ∈ l ∨ l.foldl Nat.max a = a := by
  induction l generalizing a with
  | nil => exact Or.inr rfl
  | cons x xs ih =>
    rw [List.foldl_cons]
    rcases ih (Nat.max a x) with h | h
    · exact Or.inl (List.mem_cons_of_mem x h)
    · rw [h]
      rcases Nat.le_total a x with hle | hle
      · have hx : Nat.max a x = x := Nat.max_eq_right hle
        rw [hx]
        exact Or.inl (List.mem_cons_self x xs)
      · exact Or.inr (Nat.max_eq_left hle)

/-- On a non-empty list of ids, `Math.max` seeded with 0 is one of the ids. -/
theorem maxIds_mem (l : List Nat) (h : l ≠ []) : maxIds l ∈ l := by
  rcases foldl_max_mem l 0 with hm | h0
  · exact hm
  · unfold maxIds
    rw [h0]
    match l, h with
    | x :: xs, _ =>
      have hx : x ≤ (x :: xs).foldl Nat.max 0 :=
        mem_le_foldl_max (x :: xs) 0 (List.mem_cons_self x xs)
      rw [h0] at hx
      have hx0 : x = 0 := by omega
      exact hx0 ▸ List.mem_cons_self x xs

/-- Claim C6: the id allocator returns max(existing ids) + 1 on a non-empty
collection and 1 on an empty one; on `[{id:1},{id:3}]` it returns 4; and the
returned id is strictly greater than (hence distinct from) every existing id. -/
theorem generateId_spec :
    (∀ {α : Type} (idOf : α → Nat) (data : List α), data ≠ [] →
      ∃ r ∈ data, generateId idOf data = idOf r + 1 ∧ ∀ y ∈ data, idOf y ≤ idOf r) ∧
    (∀ {α : Type} (idOf : α → Nat), generateId idOf ([] : List α) = 1) ∧
    generateId BareRec.id [⟨1⟩, ⟨3⟩] = 4 ∧
    (∀ {α : Type} (idOf : α → Nat) (data : List α) (r : α), r ∈ data →
      idOf r < generateId idOf data) := by
  refine ⟨?_, ?_, by decide, ?_⟩
  · intro α idOf data hne
    have hmm : maxIds (data.map idOf) ∈ data.map idOf :=
      maxIds_mem _ (by simpa using hne)
    obtain ⟨r, hr, hid⟩ := List.mem_map.mp hmm
    have hlen : data.length > 0 := List.length_pos.mpr hne
    refine ⟨r, hr, ?_, ?_⟩
    · rw [generateId, if_pos hlen, hid]
    · intro y hy
      have h2 : idOf y ≤ maxIds (data.map idOf) :=
        mem_le_foldl_max (data.map idOf) 0 (List.mem_map_of_mem idOf hy)
      omega
  · intro α idOf
    rfl
  · intro α idOf data r hr
    have h1 : idOf r ≤ maxIds (data.map idOf) :=
      mem_le_foldl_max (data.map idOf) 0 (List.mem_map_of_mem idOf hr)
    have hlen : data.length > 0 := List.length_pos.mpr (List.ne_nil_of_mem hr)
    rw [generateId, if_pos hlen]
    omega

/-- Witness for C6 at the specification's example collection `[{id:1},{id:3}]`:
the allocator returns the successor of some maximal id, and id 3 is below
the allocated id. -/
theorem generateId_spec_witness :
    (∃ r ∈ [(⟨1⟩ : BareRec), ⟨3⟩], generateId BareRec.id [⟨1⟩, ⟨3⟩] = r.id + 1 ∧
      ∀ y ∈ [(⟨1⟩ : BareRec), ⟨3⟩], y.id ≤ r.id) ∧
    BareRec.id ⟨3⟩ < generateId BareRec.id [⟨1⟩, ⟨3⟩] :=
  ⟨generateId_spec.1 BareRec.id [⟨1⟩, ⟨3⟩] (by decide),
   generateId_spec.2.2.2 BareRec.id [⟨1⟩, ⟨3⟩] ⟨3⟩ (by decide)⟩

/- Entity form controller update paths (claims C7 and C8). -/


/-- `findIndex` + in-place assignment: the first matching index is replaced
by `g` of the old record, every other index is untouched, and the length is
preserved. -/
theorem updateFirstMatch_eq (p : JRecord → Bool) (g : JRecord → JRecord) :
    ∀ (l : List JRecord) (i : Nat),
      (∀ j, j < i → ∀ r, l[j]? = some r → p r = false) →
      (∀ r, l[i]? = some r → p r = true) →
      (updateFirstMatch p g l).length = l.length ∧
      (∀ r, l[i]? = some r → (updateFirstMatch p g l)[i]? = some (g r)) ∧
      (∀ j, j ≠ i → (updateFirstMatch p g l)[j]? = l[j]?) := by
  intro l
  induction l with
  | nil =>
    intro i _ _
    exact ⟨rfl, fun r hr => by simp at hr, fun j _ => rfl⟩
  | cons x xs ih =>
    intro i hbefore hmatch
    cases i with
    | zero =>
      have hx : p x = true := hmatch x (by simp)
      have hrw : updateFirstMatch p g (x :: xs) = g x :: xs := by
        simp [updateFirstMatch, hx]
      refine ⟨by simp [hrw], ?_, ?_⟩
      · intro r hr
        simp only [List.getElem?_cons_zero, Option.some.injEq] at hr
        subst hr
        simp [hrw]
      · intro j hj
        cases j with
        | zero => exact absurd rfl hj
        | succ j2 => simp [hrw]
    | succ i2 =>
      have hx : p x = false := hbefore 0 (Nat.succ_pos i2) x (by simp)
      have hrw : updateFirstMatch p g (x :: xs) = x :: updateFirstMatch p g xs := by
        simp [updateFirstMatch, hx]
      obtain ⟨hl, hset, hother⟩ := ih i2
        (fun j hj r hr => hbefore (j + 1) (by omega) r (by simpa using hr))
        (fun r hr => hmatch r (by simpa using hr))
      refine ⟨by simp [hrw, hl], ?_, ?_⟩
      · intro r hr
        simp only [List.getElem?_cons_succ] at hr
        simp [hrw, hset r hr]
      · intro j hj
        cases j with
        | zero => simp [hrw]
        | succ j2 => simp [hrw, hother j2 (by omega)]

/-- `find?` returns the record at the first matching index. -/
theorem find?_eq_of_first {α : Type} (p : α → Bool) :
    ∀ (l : List α) (i : Nat),
      (∀ j, j < i → ∀ r, l[j]? = some r → p r = false) →
      ∀ r, l[i]? = some r → p r = true → l.find? p = some r := by
  intro l
  induction l with
  | nil => intro i _ r hr; simp at hr
  | cons x xs ih =>
    intro i hbefore r hr hp
    cases i with
    | zero =>
      simp only [List.getElem?_cons_zero, Option.some.injEq] at hr
      subst hr
      simp [hp]
    | succ i2 =>
      have hx : p x = false := hbefore 0 (Nat.succ_pos i2) x (by simp)
      simp only [List.getElem?_cons_succ] at hr
      rw [List.find?_cons_of_neg _ (by simp [hx])]
      exact ih i2 (fun j hj r2 hr2 => hbefore (j + 1) (by omega) r2 (by simpa using hr2))
        r hr hp

/-- A shallow merge leaves every field whose key the patch does not bind
unchanged. -/
theorem mergeJ_get_of_not_key (old : JRecord) (patch : List (String × Jsv))
    (k : String) (h : ∀ q ∈ patch, q.1 ≠ k) :
    (mergeJ old patch).get k = old.get k := by
  unfold mergeJ JRecord.get
  rw [List.find?_append]
  have hnone : patch.find? (fun q => q.1 == k) = none :=
    List.find?_eq_none.mpr (fun q hq => by simp [h q hq])
  simp [hnone]

/-- The order form never submits an `id` field. -/
theorem orderFormData_keys (f : OrderForm) (clients : List JRecord) :
    ∀ q ∈ orderFormData f clients, q.1 ≠ "id" := by
  intro q hq
  simp only [orderFormData, List.mem_cons, List.not_mem_nil, or_false] at hq
  rcases hq with rfl | rfl | rfl | rfl | rfl | rfl | rfl | rfl | rfl <;> simp

/-- Claim C7: the order form's update path is a shallow merge of the
submitted field values over the prior record: at the edited position the
record becomes `{ ...old, ...formData }`, its `id` (and any other field the
form does not submit) is unchanged, and all other records are unchanged. -/
theorem ordersUpdate_patch (data : List JRecord) (eid : Int) (f : OrderForm)
    (clients : List JRecord) (i : Nat)
    (hbefore : ∀ j, j < i → ∀ r, data[j]? = some r →
      jsStrictEq (r.get "id") (.num ⟨eid, 0⟩) = false)
    (hmatch : ∀ r, data[i]? = some r →
      jsStrictEq (r.get "id") (.num ⟨eid, 0⟩) = true) :
    (ordersUpdate eid f clients data).length = data.length ∧
    (∀ r, data[i]? = some r →
      (ordersUpdate eid f clients data)[i]? = some (mergeJ r (orderFormData f clients)) ∧
      (mergeJ r (orderFormData f clients)).get "id" = r.get "id" ∧
      (∀ k, (∀ q ∈ orderFormData f clients, q.1 ≠ k) →
        (mergeJ r (orderFormData f clients)).get k = r.get k)) ∧
    (∀ j, j ≠ i → (ordersUpdate eid f clients data)[j]? = data[j]?) := by
  obtain ⟨hl, hset, hother⟩ := updateFirstMatch_eq
    (fun item => jsStrictEq (item.get "id") (.num ⟨eid, 0⟩))
    (fun item => mergeJ item (orderFormData f clients)) data i hbefore hmatch
  refine ⟨hl, ?_, hother⟩
  intro r hr
  exact ⟨hset r hr,
    mergeJ_get_of_not_key r _ "id" (orderFormData_keys f clients),
    fun k hk => mergeJ_get_of_not_key r _ k hk⟩

/-- Witness for C7 at a concrete input: updating the single order with id 1
keeps its length, stores the merged record, and preserves the id. -/
theorem ordersUpdate_patch_witness :
    (ordersUpdate 1 ⟨"2", "Pizza", "1", "10", "En cours", "Payée", "addr", ""⟩ []
      [⟨[("id", .num ⟨1, 0⟩), ("notes", .str "keep")]⟩]).length = 1 ∧
    (ordersUpdate 1 ⟨"2", "Pizza", "1", "10", "En cours", "Payée", "addr", ""⟩ []
      [⟨[("id", .num ⟨1, 0⟩), ("notes", .str "keep")]⟩])[0]? =
      some (mergeJ ⟨[("id", .num ⟨1, 0⟩), ("notes", .str "keep")]⟩
        (orderFormData ⟨"2", "Pizza", "1", "10", "En cours", "Payée", "addr", ""⟩ [])) ∧
    (mergeJ ⟨[("id", .num ⟨1, 0⟩), ("notes", .str "keep")]⟩
      (orderFormData ⟨"2", "Pizza", "1", "10", "En cours", "Payée", "addr", ""⟩ [])).get "id" =
      Jsv.num ⟨1, 0⟩ := by
  have h := ordersUpdate_patch
    [⟨[("id", .num ⟨1, 0⟩), ("notes", .str "keep")]⟩] 1
    ⟨"2", "Pizza", "1", "10", "En cours", "Payée", "addr", ""⟩ [] 0
    (fun j hj => absurd hj (Nat.not_lt_zero j))
    (by
      intro r hr
      simp only [List.getElem?_cons_zero, Option.some.injEq] at hr
      subst hr
      decide)
  obtain ⟨hp1, hp2, hp3⟩ := h.2.1 ⟨[("id", .num ⟨1, 0⟩), ("notes", .str "keep")]⟩ rfl
  exact ⟨h.1, hp1, by rw [hp2]; rfl⟩

/-- Counterexample to claim C8: the Products update path is a merge, not a
full replacement — the submitted product form has no `id` field, yet after
an update the stored record still has `id` 7 (a full replacement by the
submitted values would have dropped it). -/
theorem productsUpdate_keeps_id_counterexample :
    "id" ∉ (productFormFields ⟨"New", "Pizza", "12", "5", "S", "Disponible"⟩).map Prod.fst ∧
    ((productsUpdate 7 ⟨"New", "Pizza", "12", "5", "S", "Disponible"⟩
      [⟨[("id", .num ⟨7, 0⟩), ("name", .str "Old")]⟩]).headD ⟨[]⟩).get "id" =
      .num ⟨7, 0⟩ ∧
    Jsv.num ⟨7, 0⟩ ≠ Jsv.undefined := by
  decide

/-- The client record built from the form has no `createdAt` field. -/
theorem clientFormRecord_no_createdAt (data : List JRecord) (f : ClientForm) :
    (clientFormRecord data f).get "createdAt" = .undefined := rfl

/-- Amended claim C8: the Order *and Product* update paths merge (patch) the
submitted fields over the existing record, preserving fields the form does
not submit; the Client and User update paths replace the stored record
wholesale by the constructed record data, so a field absent from that data
does not survive — a Client's `createdAt` is wiped to `undefined`, while
the User path survives only because it explicitly copies the prior record's
`createdAt` into the new data. -/
theorem updateReplace_semantics :
    (∀ (f : ProductForm) (r : JRecord) (k : String),
      (∀ q ∈ productFormFields f, q.1 ≠ k) →
      (mergeJ r (productFormFields f)).get k = r.get k) ∧
    (∀ (data : List JRecord) (f : ClientForm) (i : Nat),
      (∀ j, j < i → ∀ r, data[j]? = some r →
        looseEqJs (r.get "id") (.str f.entityId) = false) →
      (∀ r, data[i]? = some r → looseEqJs (r.get "id") (.str f.entityId) = true) →
      (∀ r, data[i]? = some r →
        (clientsUpdate f data)[i]? = some (clientFormRecord data f)) ∧
      (clientFormRecord data f).get "createdAt" = .undefined) ∧
    (∀ (data : List JRecord) (f : UserForm) (now : String) (i : Nat),
      (∀ j, j < i → ∀ r, data[j]? = some r →
        looseEqJs (r.get "id") (.str f.entityId) = false) →
      (∀ r, data[i]? = some r → looseEqJs (r.get "id") (.str f.entityId) = true) →
      f.entityId ≠ "" →
      ∀ r, data[i]? = some r →
        (usersUpdate f now data)[i]? = some (userFormRecord data f now) ∧
        (userFormRecord data f now).get "createdAt" = r.get "createdAt") := by
  refine ⟨?_, ?_, ?_⟩
  · intro f r k hk
    exact mergeJ_get_of_not_key r _ k hk
  · intro data f i hbefore hmatch
    obtain ⟨hl, hset, hother⟩ := updateFirstMatch_eq
      (fun c => looseEqJs (c.get "id") (.str f.entityId))
      (fun _ => clientFormRecord data f) data i hbefore hmatch
    exact ⟨fun r hr => hset r hr, clientFormRecord_no_createdAt data f⟩
  · intro data f now i hbefore hmatch hne r hr
    obtain ⟨hl, hset, hother⟩ := updateFirstMatch_eq
      (fun u => looseEqJs (u.get "id") (.str f.entityId))
      (fun _ => userFormRecord data f now) data i hbefore hmatch
    have hfind : data.find? (fun u => looseEqJs (u.get "id") (.str f.entityId)) = some r :=
      find?_eq_of_first _ data i hbefore r hr (hmatch r hr)
    have hne2 : (f.entityId == "") = false := by
      simp [hne]
    constructor
    · exact hset r hr
    · show (if (f.entityId == "") = true then Jsv.str now
        else (data.find? (fun u => looseEqJs (u.get "id") (.str f.entityId))).elim
          .undefined (fun u => u.get "createdAt")) = r.get "createdAt"
      rw [hne2, hfind]
      simp

/-- Witness for the amended C8 at concrete inputs: a product merge keeps id
7; a client update's record has no `createdAt`; a user update stores the
rebuilt record whose `createdAt` is copied from the prior record. -/
theorem updateReplace_semantics_witness :
    (mergeJ ⟨[("id", .num ⟨7, 0⟩)]⟩
      (productFormFields ⟨"New", "Pizza", "12", "5", "S", "Disponible"⟩)).get "id" =
      Jsv.num ⟨7, 0⟩ ∧
    (clientFormRecord [⟨[("id", .num ⟨1, 0⟩), ("createdAt", .str "2024-01-10")]⟩]
      ⟨"1", "N", "e", "p", "Particulier", "Paris", "0", "addr"⟩).get "createdAt" = .undefined ∧
    (usersUpdate ⟨"1", "N", "e", "Admin", "Actif", "p"⟩ "2024-05-01"
      [⟨[("id", .num ⟨1, 0⟩), ("createdAt", .str "2024-01-15")]⟩])[0]? =
      some (userFormRecord [⟨[("id", .num ⟨1, 0⟩), ("createdAt", .str "2024-01-15")]⟩]
        ⟨"1", "N", "e", "Admin", "Actif", "p"⟩ "2024-05-01") ∧
    (userFormRecord [⟨[("id", .num ⟨1, 0⟩), ("createdAt", .str "2024-01-15")]⟩]
      ⟨"1", "N", "e", "Admin", "Actif", "p"⟩ "2024-05-01").get "createdAt" =
      (⟨[("id", .num ⟨1, 0⟩), ("createdAt", .str "2024-01-15")]⟩ : JRecord).get "createdAt" := by
  have h1 := updateReplace_semantics.1 ⟨"New", "Pizza", "12", "5", "S", "Disponible"⟩
    ⟨[("id", .num ⟨7, 0⟩)]⟩ "id" (by decide)
  have h2 := (updateReplace_semantics.2.1
    [⟨[("id", .num ⟨1, 0⟩), ("createdAt", .str "2024-01-10")]⟩]
    ⟨"1", "N", "e", "p", "Particulier", "Paris", "0", "addr"⟩ 0
    (fun j hj => absurd hj (Nat.not_lt_zero j))
    (by
      intro r hr
      simp only [List.getElem?_cons_zero, Option.some.injEq] at hr
      subst hr
      decide)).2
  have h3 := updateReplace_semantics.2.2
    [⟨[("id", .num ⟨1, 0⟩), ("createdAt", .str "2024-01-15")]⟩]
    ⟨"1", "N", "e", "Admin", "Actif", "p"⟩ "2024-05-01" 0
    (fun j hj => absurd hj (Nat.not_lt_zero j))
    (by
      intro r hr
      simp only [List.getElem?_cons_zero, Option.some.injEq] at hr
      subst hr
      decide)
    (by decide)
    ⟨[("id", .num ⟨1, 0⟩), ("createdAt", .str "2024-01-15")]⟩ rfl
  exact ⟨by rw [h1]; rfl, h2, h3.1, h3.2⟩

/- Deletion (claim C9) and the deliveries form (claim C10). -/


/-- Claim C9: deleting an id not present leaves the collection unchanged;
when the ids are unique, deleting a present id removes exactly that one
record, keeping the rest in their original relative order; deleting twice
equals deleting once. -/
theorem deleteById_spec :
    ∀ {α : Type} (idOf : α → Nat) (x : Nat) (l : List α),
      ((∀ r ∈ l, idOf r ≠ x) → deleteById idOf x l = l) ∧
      ((l.map idOf).Nodup → ∀ r ∈ l, idOf r = x →
        ∃ l1 l2, l = l1 ++ r :: l2 ∧ deleteById idOf x l = l1 ++ l2 ∧
          (deleteById idOf x l).length + 1 = l.length) ∧
      deleteById idOf x (deleteById idOf x l) = deleteById idOf x l := by
  intro α idOf x l
  refine ⟨?_, ?_, ?_⟩
  · intro h
    exact List.filter_eq_self.mpr (fun a ha => by simpa [bne_iff_ne] using h a ha)
  · intro hnd r hr hid
    obtain ⟨l1, l2, rfl⟩ := List.append_of_mem hr
    rw [List.map_append, List.map_cons] at hnd
    rw [List.nodup_append] at hnd
    obtain ⟨hn1, hn2, hdisj⟩ := hnd
    rw [List.nodup_cons] at hn2
    have h1 : ∀ a ∈ l1, idOf a ≠ x := by
      intro a ha heq
      exact hdisj (List.mem_map_of_mem idOf ha) (by
        rw [heq, ← hid]
        exact List.mem_cons_self _ _)
    have h2 : ∀ a ∈ l2, idOf a ≠ x := by
      intro a ha heq
      apply hn2.1
      rw [hid, ← heq]
      exact List.mem_map_of_mem idOf ha
    have hfil : deleteById idOf x (l1 ++ r :: l2) = l1 ++ l2 := by
      rw [deleteById, List.filter_append]
      congr 1
      · exact List.filter_eq_self.mpr (fun a ha => by simpa [bne_iff_ne] using h1 a ha)
      · rw [List.filter_cons_of_neg (by simp [hid])]
        exact List.filter_eq_self.mpr (fun a ha => by simpa [bne_iff_ne] using h2 a ha)
    refine ⟨l1, l2, rfl, hfil, ?_⟩
    rw [hfil]
    simp [List.length_append]
    omega
  · unfold deleteById
    rw [List.filter_filter]
    simp

/-- Witness for C9 at concrete inputs: deleting the absent id 99 from a
one-order collection is the identity, and deleting id 2 from a two-order
collection removes exactly that record. -/
theorem deleteById_spec_witness :
    (deleteById Order.id 99
      [⟨1, 1, "A", "P", 1, ⟨5, 0⟩, "Livrée", "Payée", "a", "d", ""⟩] =
      [⟨1, 1, "A", "P", 1, ⟨5, 0⟩, "Livrée", "Payée", "a", "d", ""⟩]) ∧
    (∃ l1 l2,
      [(⟨1, 1, "A", "P", 1, ⟨5, 0⟩, "Livrée", "Payée", "a", "d", ""⟩ : Order),
       ⟨2, 1, "B", "Q", 1, ⟨6, 0⟩, "Livrée", "Payée", "a", "d", ""⟩] = l1 ++
        ⟨2, 1, "B", "Q", 1, ⟨6, 0⟩, "Livrée", "Payée", "a", "d", ""⟩ :: l2 ∧
      confirmDelete 2
        [⟨1, 1, "A", "P", 1, ⟨5, 0⟩, "Livrée", "Payée", "a", "d", ""⟩,
         ⟨2, 1, "B", "Q", 1, ⟨6, 0⟩, "Livrée", "Payée", "a", "d", ""⟩] = l1 ++ l2 ∧
      (confirmDelete 2
        [⟨1, 1, "A", "P", 1, ⟨5, 0⟩, "Livrée", "Payée", "a", "d", ""⟩,
         ⟨2, 1, "B", "Q", 1, ⟨6, 0⟩, "Livrée", "Payée", "a", "d", ""⟩]).length + 1 = 2) := by
  constructor
  · exact (deleteById_spec Order.id 99 _).1 (by decide)
  · exact (deleteById_spec Order.id 2 _).2.1 (by decide) _ (by decide) rfl

/-- Claim C10: every delivery record written by the deliveries form stores
`orderId` and `duration` as the raw form strings, while `id` is parsed
(`parseInt` when editing, the allocator when creating); consequently the
stored `orderId` is a string while order ids are numbers, and the order
pre-selection in `openModal` relies on loose equality (`"3" == 3`). -/
theorem deliveryForm_raw_strings :
    ∀ (f : DeliveryForm) (now : String) (ds : List JRecord),
      (deliveryFormRecord ds f now).get "orderId" = .str f.orderId ∧
      (deliveryFormRecord ds f now).get "duration" = .str f.duration ∧
      (f.entityId = "" → (deliveryFormRecord ds f now).get "id" = jGenerateId ds) ∧
      (∀ n : Int, f.entityId ≠ "" → parseIntJs f.entityId = some n →
        (deliveryFormRecord ds f now).get "id" = .num ⟨n, 0⟩) ∧
      orderOptionSelected ⟨[("orderId", .str "3")]⟩ ⟨[("id", .num ⟨3, 0⟩)]⟩ = true ∧
      Jsv.str "3" ≠ Jsv.num ⟨3, 0⟩ := by
  intro f now ds
  refine ⟨rfl, rfl, ?_, ?_, by decide, by decide⟩
  · intro h
    show (if (f.entityId == "") = true then jGenerateId ds
      else jsvOfOptInt (parseIntJs f.entityId)) = jGenerateId ds
    simp [h]
  · intro n hne hp
    show (if (f.entityId == "") = true then jGenerateId ds
      else jsvOfOptInt (parseIntJs f.entityId)) = .num ⟨n, 0⟩
    rw [if_neg (by simp [hne]), hp]
    rfl

/-- Witness for C10 at a concrete form: editing delivery 5 assigned to
order "3" stores a parsed numeric id and the raw string order id. -/
theorem deliveryForm_raw_strings_witness :
    (deliveryFormRecord [] ⟨"5", "3", "Jean", "Livrée", "25", "addr", "n"⟩ "2024-05-01").get
      "id" = .num ⟨5, 0⟩ ∧
    (deliveryFormRecord [] ⟨"5", "3", "Jean", "Livrée", "25", "addr", "n"⟩ "2024-05-01").get
      "orderId" = .str "3" := by
  have h := deliveryForm_raw_strings ⟨"5", "3", "Jean", "Livrée", "25", "addr", "n"⟩
    "2024-05-01" []
  exact ⟨h.2.2.2.1 5 (by decide) (by decide), h.1⟩
